import Mathlib

/-!
Shallow embedding of `nextcore/http/global_rate_limiter/limited.py`
(`LimitedGlobalRateLimiter`).

The limiter owns five pieces of state: `limit`, `remaining`,
`_reserved_requests`, `_pending_reset` and the priority queue
`_pending_requests`.  `acquire` is an async context manager: it computes
`calculated_remaining = remaining - _reserved_requests`, queues the caller on
a fresh future when that is exactly `0`, otherwise (and after the future
resolves) increments `_reserved_requests`, yields, and in a `finally` block
arms a one-second reset timer when none is pending and decrements both
`_reserved_requests` and `remaining`.  `_reset` clears the pending flag,
restores `remaining := limit`, resolves
`min(qsize, remaining - _reserved_requests)` queued futures in priority
order, and re-arms itself while the queue is non-empty.  `update` only logs.

The queue element type `PriorityRequestContainer` lives in a sibling module
that is not part of the sources here; it is modelled from the spec (§3
QueueEntry): a priority key plus a monotonic insertion sequence number used
as FIFO tie-break, the priority queue dequeuing in ascending
(priority, sequence) order.

Interleavings of the cooperative scheduler are modelled as event traces: an
event either starts an `acquire` call (running it up to its suspension point
or through admission), resumes a waiter whose future was resolved, exits an
admitted scope (the `finally` block), or fires a scheduled `_reset` timer.
Disabled events (exiting when no scope is open, firing when no timer is
scheduled) leave the state unchanged, so traces over-approximate the real
schedules.
-/

namespace Nextcore

/-- Modelled from the spec: `PriorityRequestContainer` is not among the
sources (only `limited.py` is); per spec §3 a queue entry carries an ordering
`priority` (lower is served first) and a monotonic insertion `sequence`
breaking priority ties in FIFO order.  The completion future is identified by
the entry itself in `resolvedLog`. -/
structure QueueEntry where
  priority : Int
  sequence : Nat
deriving DecidableEq

/-- Dequeue order of the priority queue: ascending priority, ties broken by
ascending insertion sequence. -/
def keyLE (a b : QueueEntry) : Prop :=
  a.priority < b.priority ∨ (a.priority = b.priority ∧ a.sequence ≤ b.sequence)

instance : DecidableRel keyLE := fun a b => by
  unfold keyLE
  exact inferInstance

/-- Insert an entry into the queue, kept sorted in dequeue order (the model
of `PriorityQueue.put_nowait`; stable, though keys are unique anyway since
sequences are). -/
def insertEntry (e : QueueEntry) : List QueueEntry → List QueueEntry
  | [] => [e]
  | x :: xs => if keyLE x e then x :: insertEntry e xs else e :: x :: xs

/-- The limiter state.  `limit`, `remaining`, `reservedRequests`,
`pendingReset` and `pendingRequests` are the five attributes set up in
`__init__` (lines 46-51).  The remaining fields make the cooperative
schedule observable: `nextSequence` is the insertion counter of the queue
model, `inFlight` counts admitted scopes whose `finally` block has not yet
run, `releasedWaiting` counts futures resolved by `_reset` whose owner has
not yet resumed, `timersScheduled` counts outstanding `loop.call_later`
callbacks, and `resolvedLog` records the order in which futures were
resolved. -/
structure LimiterState where
  limit : Int
  remaining : Int
  reservedRequests : Int
  pendingReset : Bool
  pendingRequests : List QueueEntry
  nextSequence : Nat
  inFlight : Nat
  releasedWaiting : Nat
  timersScheduled : Nat
  resolvedLog : List QueueEntry
deriving DecidableEq

/-- `__init__(limit)`: note the source hardcodes `self.remaining = 50`
(line 48) rather than using `limit`. -/
def init (limit : Int) : LimiterState :=
  { limit := limit
    remaining := 50
    reservedRequests := 0
    pendingReset := false
    pendingRequests := []
    nextSequence := 0
    inFlight := 0
    releasedWaiting := 0
    timersScheduled := 0
    resolvedLog := [] }

/-- `calculated_remaining = self.remaining - self._reserved_requests`
(line 55). -/
def calculatedRemaining (s : LimiterState) : Int :=
  s.remaining - s.reservedRequests

/-- Admission: `self._reserved_requests += 1` (line 69), opening a scope. -/
def admitOne (s : LimiterState) : LimiterState :=
  { s with reservedRequests := s.reservedRequests + 1, inFlight := s.inFlight + 1 }

/-- The head of `acquire` (lines 55-69): if `calculated_remaining == 0` the
caller is enqueued on a fresh future and suspends; otherwise it is admitted
immediately. -/
def acquireEnter (s : LimiterState) (priority : Int) : LimiterState :=
  if calculatedRemaining s = 0 then
    { s with
      pendingRequests := insertEntry ⟨priority, s.nextSequence⟩ s.pendingRequests
      nextSequence := s.nextSequence + 1 }
  else
    admitOne s

/-- Lines 74-77: if no reset is pending, set `_pending_reset` and schedule
`_reset` via `loop.call_later`. -/
def armTimerIfIdle (s : LimiterState) : LimiterState :=
  if s.pendingReset then s
  else { s with pendingReset := true, timersScheduled := s.timersScheduled + 1 }

/-- The `finally` block of `acquire` (lines 72-80): arm the reset timer if
none is pending, then decrement `_reserved_requests` and `remaining`. -/
def scopeExit (s : LimiterState) : LimiterState :=
  let s1 := armTimerIfIdle s
  { s1 with
    reservedRequests := s1.reservedRequests - 1
    remaining := s1.remaining - 1
    inFlight := s1.inFlight - 1 }

/-- Line 87: `to_release = min(self._pending_requests.qsize(),
self.remaining - self._reserved_requests)`, evaluated after line 85 has set
`remaining` to `limit`.  A negative `min` makes `range(to_release)` empty,
matching `Int.toNat`. -/
def toReleaseOf (s : LimiterState) : Nat :=
  (min (s.pendingRequests.length : Int) (s.limit - s.reservedRequests)).toNat

/-- The entries whose futures `_reset` resolves (lines 89-97), in resolution
order. -/
def releasedBy (s : LimiterState) : List QueueEntry :=
  s.pendingRequests.take (toReleaseOf s)

/-- `_reset` (lines 82-102): clear `_pending_reset`, restore
`remaining := limit`, resolve `to_release` queued futures in dequeue order,
and re-arm the timer when the queue is still non-empty. -/
def resetRun (s : LimiterState) : LimiterState :=
  let k := toReleaseOf s
  let queueAfter := s.pendingRequests.drop k
  let s1 := { s with
    pendingReset := false
    remaining := s.limit
    pendingRequests := queueAfter
    releasedWaiting := s.releasedWaiting + k
    resolvedLog := s.resolvedLog ++ s.pendingRequests.take k }
  if queueAfter.isEmpty then s1
  else { s1 with pendingReset := true, timersScheduled := s1.timersScheduled + 1 }

/-- `update(retry_after)` (lines 104-105): the body is a single log call;
its effect on the limiter state is the identity. -/
def update (s : LimiterState) (_retryAfter : ℚ) : LimiterState :=
  s

/-- One event of the cooperative schedule. -/
inductive Event where
  | enter (priority : Int)
  | resume
  | exitScope
  | fire
deriving DecidableEq

/-- Interleaving semantics: each event runs the corresponding piece of the
source atomically (the code between two suspension points).  Disabled
events are no-ops. -/
def step (s : LimiterState) (e : Event) : LimiterState :=
  match e with
  | .enter p => acquireEnter s p
  | .resume =>
      if s.releasedWaiting = 0 then s
      else { admitOne s with releasedWaiting := s.releasedWaiting - 1 }
  | .exitScope =>
      if s.inFlight = 0 then s else scopeExit s
  | .fire =>
      if s.timersScheduled = 0 then s
      else resetRun { s with timersScheduled := s.timersScheduled - 1 }

/-- Run a trace of events. -/
def run (s : LimiterState) (es : List Event) : LimiterState :=
  es.foldl step s

/-- An admitted `acquire` scope around a gated operation with outcome
`body`: after the `yield` (line 71) the generator resumes either normally or
with the caller's exception, the `finally` block (lines 72-80) runs on both
paths, and the outcome reaches the caller unchanged. -/
def runAdmitted (E : Type) (s : LimiterState) (body : Except E Unit) :
    LimiterState × Except E Unit :=
  match body with
  | Except.ok u => (scopeExit s, Except.ok u)
  | Except.error err => (scopeExit s, Except.error err)

/-- A state with more reservations than `remaining`, so that
`calculated_remaining` is negative (reachable only under bursts past
capacity; used to exercise the strict equality check of line 59). -/
def c3state : LimiterState :=
  { init 1 with reservedRequests := 60 }

/-- A saturated state: two equal-priority waiters enqueued in arrival order
(sequences 0 then 1) while `limit = 1` and nothing reserved, so a reset
releases exactly one of them. -/
def c7state : LimiterState :=
  { limit := 1
    remaining := 0
    reservedRequests := 0
    pendingReset := true
    pendingRequests := [⟨3, 0⟩, ⟨3, 1⟩]
    nextSequence := 2
    inFlight := 0
    releasedWaiting := 0
    timersScheduled := 1
    resolvedLog := [] }

/-- Invariant tying the counter `_reserved_requests` to the number of open
`acquire` scopes: every increment (line 69) opens a scope and every
decrement (line 79) closes one. -/
def reservedMatchesInFlight (s : LimiterState) : Prop :=
  s.reservedRequests = (s.inFlight : Int)

/-- Invariant tying the `_pending_reset` flag to the number of outstanding
`call_later` callbacks: a timer is scheduled exactly when the flag is up. -/
def timerInvariant (s : LimiterState) : Prop :=
  s.timersScheduled = (if s.pendingReset then 1 else 0)

/-! Field-level characterizations of the operations, shared by the claim
theorems below. -/

theorem insertEntry_length (e : QueueEntry) (l : List QueueEntry) :
    (insertEntry e l).length = l.length + 1 := by
  induction l with
  | nil => rfl
  | cons x xs ih =>
      simp only [insertEntry]
      split <;> simp [ih]

theorem armTimerIfIdle_reservedRequests (s : LimiterState) :
    (armTimerIfIdle s).reservedRequests = s.reservedRequests := by
  unfold armTimerIfIdle; split <;> rfl

theorem armTimerIfIdle_remaining (s : LimiterState) :
    (armTimerIfIdle s).remaining = s.remaining := by
  unfold armTimerIfIdle; split <;> rfl

theorem armTimerIfIdle_inFlight (s : LimiterState) :
    (armTimerIfIdle s).inFlight = s.inFlight := by
  unfold armTimerIfIdle; split <;> rfl

theorem armTimerIfIdle_pendingReset (s : LimiterState) :
    (armTimerIfIdle s).pendingReset = true := by
  unfold armTimerIfIdle
  split
  · assumption
  · rfl

theorem armTimerIfIdle_timersScheduled (s : LimiterState) :
    (armTimerIfIdle s).timersScheduled =
      if s.pendingReset then s.timersScheduled else s.timersScheduled + 1 := by
  unfold armTimerIfIdle
  split <;> simp_all

theorem scopeExit_reservedRequests (s : LimiterState) :
    (scopeExit s).reservedRequests = s.reservedRequests - 1 := by
  simp only [scopeExit]
  rw [armTimerIfIdle_reservedRequests]

theorem scopeExit_remaining (s : LimiterState) :
    (scopeExit s).remaining = s.remaining - 1 := by
  simp only [scopeExit]
  rw [armTimerIfIdle_remaining]

theorem scopeExit_inFlight (s : LimiterState) :
    (scopeExit s).inFlight = s.inFlight - 1 := by
  simp only [scopeExit]
  rw [armTimerIfIdle_inFlight]

theorem scopeExit_pendingReset (s : LimiterState) :
    (scopeExit s).pendingReset = true := by
  simp only [scopeExit]
  rw [armTimerIfIdle_pendingReset]

theorem scopeExit_timersScheduled (s : LimiterState) :
    (scopeExit s).timersScheduled =
      if s.pendingReset then s.timersScheduled else s.timersScheduled + 1 := by
  simp only [scopeExit]
  rw [armTimerIfIdle_timersScheduled]

theorem resetRun_reservedRequests (s : LimiterState) :
    (resetRun s).reservedRequests = s.reservedRequests := by
  simp only [resetRun]
  split <;> rfl

theorem resetRun_remaining (s : LimiterState) :
    (resetRun s).remaining = s.limit := by
  simp only [resetRun]
  split <;> rfl

theorem resetRun_limit (s : LimiterState) :
    (resetRun s).limit = s.limit := by
  simp only [resetRun]
  split <;> rfl

theorem resetRun_inFlight (s : LimiterState) :
    (resetRun s).inFlight = s.inFlight := by
  simp only [resetRun]
  split <;> rfl

theorem resetRun_nextSequence (s : LimiterState) :
    (resetRun s).nextSequence = s.nextSequence := by
  simp only [resetRun]
  split <;> rfl

theorem resetRun_pendingRequests (s : LimiterState) :
    (resetRun s).pendingRequests = s.pendingRequests.drop (toReleaseOf s) := by
  simp only [resetRun]
  split <;> rfl

theorem resetRun_resolvedLog (s : LimiterState) :
    (resetRun s).resolvedLog = s.resolvedLog ++ releasedBy s := by
  simp only [resetRun, releasedBy]
  split <;> rfl

theorem resetRun_releasedWaiting (s : LimiterState) :
    (resetRun s).releasedWaiting = s.releasedWaiting + toReleaseOf s := by
  simp only [resetRun]
  split <;> rfl

theorem resetRun_pendingReset (s : LimiterState) :
    (resetRun s).pendingReset
      = !(s.pendingRequests.drop (toReleaseOf s)).isEmpty := by
  simp only [resetRun]
  split <;> simp_all

theorem resetRun_timersScheduled (s : LimiterState) :
    (resetRun s).timersScheduled =
      if (s.pendingRequests.drop (toReleaseOf s)).isEmpty
      then s.timersScheduled else s.timersScheduled + 1 := by
  simp only [resetRun]
  split <;> simp_all

theorem resetRun_timersScheduled_of_pendingReset (s : LimiterState) :
    (resetRun s).timersScheduled =
      if (resetRun s).pendingReset then s.timersScheduled + 1
      else s.timersScheduled := by
  rw [resetRun_pendingReset, resetRun_timersScheduled]
  cases hq : (s.pendingRequests.drop (toReleaseOf s)).isEmpty <;> simp [hq]

theorem toReleaseOf_le_length (s : LimiterState) :
    toReleaseOf s ≤ s.pendingRequests.length := by
  unfold toReleaseOf
  omega

theorem releasedBy_length (s : LimiterState) :
    (releasedBy s).length = toReleaseOf s := by
  simp only [releasedBy, List.length_take]
  exact min_eq_left (toReleaseOf_le_length s)

theorem reservedMatchesInFlight_step (s : LimiterState) (e : Event)
    (h : reservedMatchesInFlight s) : reservedMatchesInFlight (step s e) := by
  unfold reservedMatchesInFlight at h ⊢
  cases e with
  | enter p =>
      simp only [step, acquireEnter]
      split
      · exact h
      · simp only [admitOne]
        push_cast
        omega
  | resume =>
      simp only [step]
      split
      · exact h
      · simp only [admitOne]
        push_cast
        omega
  | exitScope =>
      simp only [step]
      split
      · exact h
      · rename_i hn
        rw [scopeExit_reservedRequests, scopeExit_inFlight]
        omega
  | fire =>
      simp only [step]
      split
      · exact h
      · rw [resetRun_reservedRequests, resetRun_inFlight]
        exact h

theorem reservedMatchesInFlight_run (s : LimiterState) (es : List Event)
    (h : reservedMatchesInFlight s) : reservedMatchesInFlight (run s es) := by
  induction es generalizing s with
  | nil => exact h
  | cons e es ih => exact ih (step s e) (reservedMatchesInFlight_step s e h)

theorem timerInvariant_step (s : LimiterState) (e : Event)
    (h : timerInvariant s) : timerInvariant (step s e) := by
  unfold timerInvariant at h ⊢
  cases e with
  | enter p =>
      simp only [step, acquireEnter]
      split
      · exact h
      · simpa [admitOne] using h
  | resume =>
      simp only [step]
      split
      · exact h
      · simpa [admitOne] using h
  | exitScope =>
      simp only [step]
      split
      · exact h
      · rw [scopeExit_timersScheduled, scopeExit_pendingReset]
        cases hp : s.pendingReset <;> simp [hp] at h ⊢ <;> omega
  | fire =>
      simp only [step]
      split
      · exact h
      · rename_i hn
        rw [resetRun_timersScheduled_of_pendingReset]
        cases hp : s.pendingReset <;> simp [hp] at h
        · omega
        · cases hf : (resetRun
              { s with pendingReset := true,
                       timersScheduled := s.timersScheduled - 1 }).pendingReset <;>
            simp [hf] <;> omega

theorem timerInvariant_run (s : LimiterState) (es : List Event)
    (h : timerInvariant s) : timerInvariant (run s es) := by
  induction es generalizing s with
  | nil => exact h
  | cons e es ih => exact ih (step s e) (timerInvariant_step s e h)

/-! The claims. -/

/-- C1: the claim says `remaining` starts at the configured capacity, but
`__init__` hardcodes `self.remaining = 50` (line 48), so constructing the
limiter with `limit = 3` leaves `remaining = 50`, not `3`.  The docstring,
the default `limit = 50`, and `_reset` restoring `remaining = self.limit`
all show the intent is `remaining = limit`; the constant is a slip. -/
theorem init_remaining_hardcoded_fifty :
    (init 3).remaining = 50 ∧ (init 3).remaining ≠ (init 3).limit := by
  decide

/-- C2 counterexample: with `limit = 1`, two overlapping `acquire` calls
both pass the `calculated_remaining == 0` gate (it starts at 50, not at
`limit`), so `_reserved_requests` reaches 2, leaving the claimed interval
`[0, limit]`. -/
theorem reserved_interval_cex :
    ¬ (0 ≤ (run (init 1) [Event.enter 0, Event.enter 0]).reservedRequests ∧
       (run (init 1) [Event.enter 0, Event.enter 0]).reservedRequests
         ≤ (init 1).limit) := by
  decide

/-- C2 amended: over every trace of acquire entries, waiter resumptions,
scope exits and timer firings from a fresh limiter, `_reserved_requests`
never goes negative (it always equals the number of open scopes); the upper
bound `limit` of the original claim does not hold. -/
theorem reserved_never_negative (limit : Int) (es : List Event) :
    0 ≤ (run (init limit) es).reservedRequests := by
  have h := reservedMatchesInFlight_run (init limit) es
    (by simp [reservedMatchesInFlight, init])
  unfold reservedMatchesInFlight at h
  rw [h]
  exact Int.ofNat_nonneg _

/-- C3: `acquire` queues the caller exactly when
`calculated_remaining == 0` at entry, and admits immediately (incrementing
`_reserved_requests`, leaving the queue alone) in every other state,
including states where `calculated_remaining` is negative. -/
theorem acquire_blocks_iff_available_zero (s : LimiterState) (p : Int) :
    ((acquireEnter s p).pendingRequests.length = s.pendingRequests.length + 1
        ↔ calculatedRemaining s = 0)
  ∧ ((acquireEnter s p).reservedRequests = s.reservedRequests + 1
        ↔ calculatedRemaining s ≠ 0)
  ∧ (calculatedRemaining s < 0 →
        (acquireEnter s p).reservedRequests = s.reservedRequests + 1
      ∧ (acquireEnter s p).pendingRequests = s.pendingRequests) := by
  unfold acquireEnter
  by_cases hc : calculatedRemaining s = 0
  · rw [if_pos hc]
    refine ⟨?_, ?_, ?_⟩
    · simp [hc, insertEntry_length]
    · constructor
      · intro habs
        simp at habs
      · intro habs
        exact absurd hc habs
    · intro hneg
      exact absurd hc (by omega)
  · rw [if_neg hc]
    refine ⟨?_, ?_, ?_⟩
    · simp [admitOne, hc]
    · simp [admitOne, hc]
    · intro _
      exact ⟨rfl, rfl⟩

/-- C3 witness: in a burst-past-capacity state (`calculated_remaining`
equal to -10) an `acquire` call admits immediately instead of queueing. -/
theorem acquire_blocks_iff_available_zero_witness :
    calculatedRemaining c3state < 0 ∧
    ((acquireEnter c3state 7).reservedRequests = c3state.reservedRequests + 1
      ∧ (acquireEnter c3state 7).pendingRequests = c3state.pendingRequests) :=
  ⟨by decide, (acquire_blocks_iff_available_zero c3state 7).2.2 (by decide)⟩

/-- C4: for an admitted scope, whatever the outcome of the gated operation
(normal return or an exception), the `finally` block runs exactly once —
arming the timer when none is pending, then decrementing
`_reserved_requests` and `remaining` — and the outcome reaches the caller
unchanged. -/
theorem acquire_exit_bookkeeping_all_paths (E : Type) (s : LimiterState)
    (body : Except E Unit) :
    (runAdmitted E s body).2 = body
  ∧ (runAdmitted E s body).1 = scopeExit s
  ∧ (runAdmitted E s body).1.reservedRequests = s.reservedRequests - 1
  ∧ (runAdmitted E s body).1.remaining = s.remaining - 1
  ∧ (runAdmitted E s body).1.pendingReset = true
  ∧ (runAdmitted E s body).1.timersScheduled
      = (if s.pendingReset then s.timersScheduled else s.timersScheduled + 1) := by
  cases body <;>
    exact ⟨rfl, rfl, scopeExit_reservedRequests s, scopeExit_remaining s,
      scopeExit_pendingReset s, scopeExit_timersScheduled s⟩

/-- C5: one run of `_reset` restores `remaining` to `limit`, computes
`to_release` as the minimum of the queue size and the freshly restored
capacity minus the reservations, dequeues and resolves exactly that many
entries, and ends with the pending-reset flag up (and a timer scheduled)
exactly when the queue is still non-empty. -/
theorem reset_cycle_effects (s : LimiterState) :
    toReleaseOf s
      = (min ((s.pendingRequests.length : Int)) (s.limit - s.reservedRequests)).toNat
  ∧ (resetRun s).remaining = s.limit
  ∧ (resetRun s).resolvedLog = s.resolvedLog ++ releasedBy s
  ∧ (releasedBy s).length = toReleaseOf s
  ∧ (resetRun s).pendingRequests = s.pendingRequests.drop (toReleaseOf s)
  ∧ (resetRun s).releasedWaiting = s.releasedWaiting + toReleaseOf s
  ∧ (resetRun s).pendingReset = !(resetRun s).pendingRequests.isEmpty
  ∧ (resetRun s).timersScheduled
      = (if (resetRun s).pendingRequests.isEmpty then s.timersScheduled
         else s.timersScheduled + 1) := by
  refine ⟨rfl, resetRun_remaining s, resetRun_resolvedLog s, releasedBy_length s,
    resetRun_pendingRequests s, resetRun_releasedWaiting s, ?_, ?_⟩
  · rw [resetRun_pendingReset, resetRun_pendingRequests]
  · rw [resetRun_timersScheduled, resetRun_pendingRequests]

/-- C6: over every trace from a fresh limiter, at most one `_reset`
callback is outstanding at any instant: the scheduled-timer count never
exceeds one (it equals one exactly when `_pending_reset` is up). -/
theorem at_most_one_timer_scheduled (limit : Int) (es : List Event) :
    (run (init limit) es).timersScheduled ≤ 1 := by
  have h := timerInvariant_run (init limit) es (by simp [timerInvariant, init])
  unfold timerInvariant at h
  rw [h]
  split <;> omega

/-- C7: when the queue is in dequeue order (ascending priority, ties by
ascending insertion sequence, as the modelled `PriorityRequestContainer`
orders it), a `_reset` run releases entries in that order, and every
released entry precedes — by priority, or by arrival among equal
priorities — every entry left in the queue. -/
theorem release_order_priority_then_fifo (s : LimiterState)
    (h : s.pendingRequests.Pairwise keyLE) :
    (releasedBy s).Pairwise keyLE
  ∧ ∀ a ∈ releasedBy s, ∀ b ∈ (resetRun s).pendingRequests, keyLE a b := by
  rw [resetRun_pendingRequests]
  have h2 : (releasedBy s ++ s.pendingRequests.drop (toReleaseOf s)).Pairwise
      keyLE := by
    rw [releasedBy, List.take_append_drop]
    exact h
  rcases List.pairwise_append.mp h2 with ⟨h1, _, hcross⟩
  exact ⟨h1, hcross⟩

/-- C7 witness: the spec scenario — two equal-priority waiters enqueued A
then B (sequences 0 and 1) with `toRelease = 1`: A is released, B stays
queued. -/
theorem release_order_priority_then_fifo_witness :
    c7state.pendingRequests.Pairwise keyLE
  ∧ ((releasedBy c7state).Pairwise keyLE
      ∧ ∀ a ∈ releasedBy c7state, ∀ b ∈ (resetRun c7state).pendingRequests,
          keyLE a b)
  ∧ releasedBy c7state = [⟨3, 0⟩]
  ∧ (resetRun c7state).pendingRequests = [⟨3, 1⟩] :=
  ⟨by decide, release_order_priority_then_fifo c7state (by decide),
    by decide, by decide⟩

/-- C8: `update` only logs; calling it any number of times, with any
retry-after value, leaves `remaining`, `_reserved_requests`,
`_pending_reset` and the queue exactly as they were. -/
theorem update_leaves_state_unchanged (s : LimiterState) (r : ℚ) (n : Nat) :
    ((fun t => update t r)^[n] s).remaining = s.remaining
  ∧ ((fun t => update t r)^[n] s).reservedRequests = s.reservedRequests
  ∧ ((fun t => update t r)^[n] s).pendingReset = s.pendingReset
  ∧ ((fun t => update t r)^[n] s).pendingRequests = s.pendingRequests := by
  have h : (fun t => update t r)^[n] s = s := Function.iterate_fixed rfl n
  rw [h]
  exact ⟨rfl, rfl, rfl, rfl⟩

/-- C9: a `_reset` run that starts with an empty queue ends with
`remaining = limit` and the pending-reset flag down. -/
theorem reset_empty_queue_roundtrip (s : LimiterState)
    (h : s.pendingRequests = []) :
    (resetRun s).remaining = s.limit ∧ (resetRun s).pendingReset = false := by
  refine ⟨resetRun_remaining s, ?_⟩
  rw [resetRun_pendingReset, h]
  simp

/-- C9 witness: running `_reset` on a freshly constructed limiter (empty
queue) restores `remaining = limit` and leaves no reset pending. -/
theorem reset_empty_queue_roundtrip_witness :
    (init 5).pendingRequests = []
  ∧ ((resetRun (init 5)).remaining = (init 5).limit
      ∧ (resetRun (init 5)).pendingReset = false) :=
  ⟨rfl, reset_empty_queue_roundtrip (init 5) rfl⟩

/-- C10: `_reset` never touches `_reserved_requests` (nor `limit`, the
number of open scopes, or the insertion counter); it mutates only
`remaining`, the pending-reset flag, the queue and the resolved futures. -/
theorem reset_preserves_reserved_count (s : LimiterState) :
    (resetRun s).reservedRequests = s.reservedRequests
  ∧ (resetRun s).limit = s.limit
  ∧ (resetRun s).inFlight = s.inFlight
  ∧ (resetRun s).nextSequence = s.nextSequence :=
  ⟨resetRun_reservedRequests s, resetRun_limit s, resetRun_inFlight s,
    resetRun_nextSequence s⟩

end Nextcore
